import Mathlib

/-!
Verification development for the BJJ video-analysis backend (`src/main.py`).

The Python source is shallowly embedded: pure helpers become Lean functions,
Python floats become exact rationals (`ℚ`), Python ints become `ℤ`/`ℕ`,
`None`-able values become `Option`, and code that can raise returns `Except`.
External collaborators (the cv2 video decoder, the vision-model service) are
modelled as explicit inputs: a `VideoSource` record and an oracle response.
IEEE-754 rounding of float arithmetic is not modelled (exact rational
arithmetic is used); none of the verified properties sits on a float
rounding boundary.
-/

namespace BJJ

/-! ### Python-style primitive helpers -/

/-- Truncation toward zero, as Python's `int(...)` applied to a real value. -/
def pyTrunc (q : ℚ) : ℤ := Int.tdiv q.num (q.den : ℤ)

/-- Floor of a rational, as Python's `math.floor` / float `//` semantics. -/
def floorQ (q : ℚ) : ℤ := Int.fdiv q.num (q.den : ℤ)


/-- Python's `f"{i:02d}"`: zero-pad a (possibly negative) integer to two digits. -/
def pyFmt02 (i : ℤ) : String := if 0 ≤ i ∧ i < 10 then "0" ++ toString i else toString i

/-- Python's `range(a, b, step)` for a positive `step`. -/
def pyRange (a b step : ℤ) : List ℤ :=
  (List.range (if b ≤ a then 0 else (Int.fdiv (b - a + step - 1) step).toNat)).map
    (fun k => a + step * (k : ℤ))

/-- Characters stripped by Python's `str.strip()` (ASCII whitespace; exotic
Unicode whitespace is not modelled). -/
def pyWsChar (c : Char) : Bool :=
  c = ' ' || c = '\t' || c = '\n' || c = '\r' || c = Char.ofNat 11 || c = Char.ofNat 12

/-- Python's `str.strip()` on a character list. -/
def pyStrip (cs : List Char) : List Char :=
  ((cs.dropWhile pyWsChar).reverse.dropWhile pyWsChar).reverse

/-- Whether `pat` occurs as a contiguous substring of `hay` (Python's `pat in hay`). -/
def hasSub (pat : List Char) : List Char → Bool
  | [] => pat.isPrefixOf []
  | c :: rest => pat.isPrefixOf (c :: rest) || hasSub pat rest

/-- Everything after the first occurrence of `pat` (Python `s.split(pat)[1]`
up to the remainder of the string; callers re-cut at the next marker). -/
def afterFirst (pat : List Char) : List Char → List Char
  | [] => []
  | c :: rest => if pat.isPrefixOf (c :: rest) then (c :: rest).drop pat.length
                 else afterFirst pat rest

/-- Everything before the first occurrence of `pat` (Python `s.split(pat)[0]`). -/
def beforeFirst (pat : List Char) : List Char → List Char
  | [] => []
  | c :: rest => if pat.isPrefixOf (c :: rest) then []
                 else c :: beforeFirst pat rest

/-! ### Kernel-computable rational arithmetic

Mathlib's field operations on `ℚ` do not reduce definitionally, so the model
computes with the primitives below (built from `mkRat`, `Rat.num`, `Rat.den`
and integer arithmetic, all of which the kernel evaluates).  Each primitive
is proved equal to the corresponding Mathlib operation in the theorem
section, so properties are still stated with ordinary `ℚ` arithmetic. -/

/-- The rational `n / 1`. -/
def intQ (n : ℤ) : ℚ := mkRat n 1

/-- Computable multiplication on `ℚ`. -/
def qmul (a b : ℚ) : ℚ := mkRat (a.num * b.num) (a.den * b.den)

/-- Computable addition on `ℚ`. -/
def qadd (a b : ℚ) : ℚ := mkRat (a.num * (b.den : ℤ) + b.num * (a.den : ℤ)) (a.den * b.den)

/-- Computable subtraction on `ℚ`. -/
def qsub (a b : ℚ) : ℚ := mkRat (a.num * (b.den : ℤ) - b.num * (a.den : ℤ)) (a.den * b.den)

/-- Computable division on `ℚ` (0 when the divisor is 0, as in Mathlib). -/
def qdiv (a b : ℚ) : ℚ := mkRat (Int.sign b.num * a.num * (b.den : ℤ)) (a.den * b.num.natAbs)

/-- Computable absolute value on `ℚ`. -/
def qabs (a : ℚ) : ℚ := mkRat |a.num| a.den

/-- Computable strict order test on `ℚ`. -/
def qlt (a b : ℚ) : Bool := decide (a.num * (b.den : ℤ) < b.num * (a.den : ℤ))

/-- Computable order test on `ℚ`. -/
def qle (a b : ℚ) : Bool := decide (a.num * (b.den : ℤ) ≤ b.num * (a.den : ℤ))

/-- Python's `round(x, 2)` modelled as rounding to the nearest multiple of
1/100 (half away from even is not modelled; no verified property touches an
exact .005 boundary). -/
def round2 (q : ℚ) : ℚ := mkRat (floorQ (qadd (qmul q (intQ 100)) (mkRat 1 2))) 100

/-! ### JSON values and a model of `json.loads`

The parser accepts the JSON grammar with integer numbers only (a number with
a fractional part or exponent is rejected: floats are not modelled) and
non-surrogate `\uXXXX` escapes.  On everything the verified properties
evaluate it agrees with Python's `json.loads`; it never accepts a string
`json.loads` would reject. -/

inductive Json where
  | null : Json
  | bool (b : Bool) : Json
  | num (n : ℤ) : Json
  | str (s : String) : Json
  | arr (xs : List Json) : Json
  | obj (kvs : List (String × Json)) : Json

/-- JSON structural whitespace. -/
def jsonWs (c : Char) : Bool := c = ' ' || c = '\t' || c = '\n' || c = '\r'

/-- Drop leading JSON whitespace. -/
def skipWs (cs : List Char) : List Char := cs.dropWhile jsonWs

/-- Value of an ASCII decimal digit. -/
def digitVal (c : Char) : ℕ := c.toNat - 48

/-- Value of an ASCII hex digit, if it is one. -/
def hexVal (c : Char) : Option ℕ :=
  if '0' ≤ c ∧ c ≤ '9' then some (c.toNat - 48)
  else if 'a' ≤ c ∧ c ≤ 'f' then some (c.toNat - 87)
  else if 'A' ≤ c ∧ c ≤ 'F' then some (c.toNat - 55)
  else none

/-- Decoding of a single-character JSON escape `\X` (the `\uXXXX` form is
handled separately). -/
def escChar (e : Char) : Option Char :=
  if e = '"' then some '"'
  else if e = '\\' then some '\\'
  else if e = '/' then some '/'
  else if e = 'b' then some (Char.ofNat 8)
  else if e = 'f' then some (Char.ofNat 12)
  else if e = 'n' then some '\n'
  else if e = 'r' then some '\r'
  else if e = 't' then some '\t'
  else none

/-- Parse the body of a JSON string (after the opening quote), returning the
decoded string and the rest of the input (fuelled structural recursion; the
fuel is instantiated with the input length, which one character per step
cannot exhaust). -/
def pString : ℕ → List Char → Option (String × List Char)
  | 0, _ => none
  | _ + 1, [] => none
  | fuel + 1, c :: rest =>
    if c = '"' then some ("", rest)
    else if c = '\\' then
      match rest with
      | [] => none
      | e :: rest2 =>
        if e = 'u' then
          match rest2 with
          | h1 :: h2 :: h3 :: h4 :: rest3 =>
            match hexVal h1, hexVal h2, hexVal h3, hexVal h4 with
            | some v1, some v2, some v3, some v4 =>
              let code := ((v1 * 16 + v2) * 16 + v3) * 16 + v4
              if 0xd800 ≤ code ∧ code < 0xe000 then none
              else (pString fuel rest3).map
                (fun p => (String.mk (Char.ofNat code :: p.1.data), p.2))
            | _, _, _, _ => none
          | _ => none
        else
          match escChar e with
          | some d => (pString fuel rest2).map (fun p => (String.mk (d :: p.1.data), p.2))
          | none => none
    else if c.toNat < 32 then none
    else (pString fuel rest).map (fun p => (String.mk (c :: p.1.data), p.2))

/-- Parse a nonnegative JSON integer literal (digits, no leading zero, and no
fractional part or exponent may follow). -/
def pNumber (cs : List Char) : Option (ℤ × List Char) :=
  let ds := cs.takeWhile Char.isDigit
  let rest := cs.dropWhile Char.isDigit
  if ds = [] then none
  else if ds.length > 1 ∧ ds.headI = '0' then none
  else match rest with
    | '.' :: _ => none
    | 'e' :: _ => none
    | 'E' :: _ => none
    | _ => some ((ds.foldl (fun acc d => acc * 10 + digitVal d) 0 : ℕ), rest)

mutual

/-- Parse one JSON value. -/
def pValue : ℕ → List Char → Option (Json × List Char)
  | 0, _ => none
  | fuel + 1, cs =>
    match skipWs cs with
    | 'n' :: 'u' :: 'l' :: 'l' :: rest => some (.null, rest)
    | 't' :: 'r' :: 'u' :: 'e' :: rest => some (.bool true, rest)
    | 'f' :: 'a' :: 'l' :: 's' :: 'e' :: rest => some (.bool false, rest)
    | '"' :: rest => (pString (rest.length + 1) rest).map (fun p => (.str p.1, p.2))
    | '-' :: rest => (pNumber rest).map (fun p => (.num (-p.1), p.2))
    | '[' :: rest =>
      (match skipWs rest with
       | ']' :: rest2 => some (.arr [], rest2)
       | _ => (pElems fuel rest).map (fun p => (.arr p.1, p.2)))
    | c :: rest =>
      if c = Char.ofNat 123 then
        match skipWs rest with
        | d :: rest2 =>
          if d = Char.ofNat 125 then some (.obj [], rest2)
          else (pMembers fuel rest).map (fun p => (.obj p.1, p.2))
        | [] => none
      else if c.isDigit then (pNumber (c :: rest)).map (fun p => (.num p.1, p.2))
      else none
    | [] => none

/-- Parse a comma-separated nonempty list of array elements and the closing bracket. -/
def pElems : ℕ → List Char → Option (List Json × List Char)
  | 0, _ => none
  | fuel + 1, cs =>
    match pValue fuel cs with
    | none => none
    | some (v, r) =>
      match skipWs r with
      | ',' :: r2 => (pElems fuel r2).map (fun p => (v :: p.1, p.2))
      | ']' :: r2 => some ([v], r2)
      | _ => none

/-- Parse a comma-separated nonempty list of object members and the closing brace. -/
def pMembers : ℕ → List Char → Option (List (String × Json) × List Char)
  | 0, _ => none
  | fuel + 1, cs =>
    match skipWs cs with
    | '"' :: rest =>
      match pString (rest.length + 1) rest with
      | none => none
      | some (k, r) =>
        match skipWs r with
        | ':' :: r2 =>
          match pValue fuel r2 with
          | none => none
          | some (v, r3) =>
            match skipWs r3 with
            | ',' :: r4 => (pMembers fuel r4).map (fun p => ((k, v) :: p.1, p.2))
            | c :: r4 => if c = Char.ofNat 125 then some ([(k, v)], r4) else none
            | [] => none
        | _ => none
    | _ => none

end

/-- Model of Python's `json.loads` on a character list: parse one value and
require only trailing whitespace after it. -/
def jsonLoads (cs : List Char) : Option Json :=
  match pValue (2 * cs.length + 8) cs with
  | some (v, rest) => if skipWs rest = [] then some v else none
  | none => none

/-! ### `extract_json_from_text` (src/main.py lines 105-148) -/

/-- The triple-backtick fence marker. -/
def fenceTick : List Char := "```".data

/-- The json-tagged fence marker. -/
def fenceJson : List Char := "```json".data

/-- The guard `"```json" in text or "```" in text` of the fenced branch. -/
def fenceMarked (cs : List Char) : Bool := hasSub fenceJson cs || hasSub fenceTick cs

/-- The reassignment `text = text.split(marker)[1].split("```")[0]` performed
inside the fenced branch (the split cannot itself fail when the guard holds). -/
def fenceInner (cs : List Char) : List Char :=
  if hasSub fenceJson cs then beforeFirst fenceTick (afterFirst fenceJson cs)
  else beforeFirst fenceTick (afterFirst fenceTick cs)

/-- The text the final brace-scanning stage operates on: the fenced branch
reassigns `text` (even when its own parse then fails), so a later stage sees
the rewritten text. -/
def stage3Text (cs : List Char) : List Char :=
  if fenceMarked cs then fenceInner cs else cs

/-- Brace-depth scan: walk from a `{`, incrementing on `{` and decrementing
on `}`; return the consumed prefix once the depth returns to zero. -/
def braceWalk : List Char → ℤ → List Char → Option (List Char)
  | [], _, _ => none
  | c :: rest, depth, acc =>
    if c = Char.ofNat 123 then braceWalk rest (depth + 1) (acc ++ [c])
    else if c = Char.ofNat 125 then
      if depth - 1 = 0 then some (acc ++ [c]) else braceWalk rest (depth - 1) (acc ++ [c])
    else braceWalk rest depth (acc ++ [c])

/-- Scan for the first `{` and take the substring up to the brace-depth
matching `}` (src/main.py lines 123-143); `none` models the `ValueError`
raised when either brace is missing. -/
def braceSub (cs : List Char) : Option (List Char) :=
  match cs.dropWhile (fun c => ¬ c = Char.ofNat 123) with
  | [] => none
  | c :: rest => braceWalk (c :: rest) 0 []

/-- Model of `extract_json_from_text`: strip, try a direct parse, then the
code-fence branch, then the brace scan; `Except.error` models the final
`raise ValueError` carrying the first 300 characters of the (possibly
rewritten) text. -/
def extract_json_from_text (s : String) : Except String Json :=
  match jsonLoads (pyStrip s.data) with
  | some v => .ok v
  | none =>
    match (if fenceMarked (pyStrip s.data)
           then jsonLoads (pyStrip (fenceInner (pyStrip s.data)))
           else none) with
    | some v => .ok v
    | none =>
      match (braceSub (stage3Text (pyStrip s.data))).bind jsonLoads with
      | some v => .ok v
      | none =>
        .error ("Could not extract JSON from: "
          ++ String.mk ((stage3Text (pyStrip s.data)).take 300))

/-! ### `parse_time_to_seconds` (src/main.py lines 80-87)

Python's `re.search(r"(\d{1,2}):(\d{2})", s)` is modelled directly: the
leftmost start position wins, and at a given start the two-digit minute
alternative is preferred (regex greediness).  `\d` is modelled as an ASCII
digit. -/

/-- Try to match `(\d{1,2}):(\d{2})` at the head of the input, returning the
captured (minutes, seconds). -/
def matchAt : List Char → Option (ℕ × ℕ)
  | c1 :: c2 :: rest =>
    if c1.isDigit then
      if c2.isDigit then
        match rest with
        | ':' :: c3 :: c4 :: _ =>
          if c3.isDigit ∧ c4.isDigit
          then some (10 * digitVal c1 + digitVal c2, 10 * digitVal c3 + digitVal c4)
          else none
        | _ => none
      else if c2 = ':' then
        match rest with
        | c3 :: c4 :: _ =>
          if c3.isDigit ∧ c4.isDigit
          then some (digitVal c1, 10 * digitVal c3 + digitVal c4)
          else none
        | _ => none
      else none
    else none
  | _ => none

/-- Leftmost match of the time pattern anywhere in the input (`re.search`). -/
def firstMatch : List Char → Option (ℕ × ℕ)
  | [] => none
  | c :: rest =>
    match matchAt (c :: rest) with
    | some r => some r
    | none => firstMatch rest

/-- Model of `parse_time_to_seconds`: falsy (empty) input and a missing match
give `None`; otherwise `60 * mm + ss`. -/
def parse_time_to_seconds (s : String) : Option ℤ :=
  if s = "" then none
  else (firstMatch s.data).map (fun p => 60 * (p.1 : ℤ) + (p.2 : ℤ))

/-- Lift to the `event.get("time")` access, which yields `None` when the key
is absent (`parse_time_to_seconds(None)` also returns `None` via the falsy
check). -/
def parseTimeOpt : Option String → Option ℤ
  | none => none
  | some s => parse_time_to_seconds s

/-! ### Frames, base64, `find_closest_frame`, `attach_frames_to_events` -/

/-- One sampled frame as built by `extract_frame_at_index`: JPEG bytes,
`mm:ss` display timestamp, timestamp in seconds, and source frame index. -/
structure FrameD where
  bytes : List ℕ
  timestamp : String
  second : ℚ
  frame_idx : ℤ
deriving DecidableEq

/-- The standard base64 alphabet. -/
def b64Alphabet : List Char :=
  "ABCDEFGHIJKLMNOPQRSTUVWXYZabcdefghijklmnopqrstuvwxyz0123456789+/".data

/-- Character of a 6-bit group. -/
def b64Char (i : ℕ) : Char := b64Alphabet.getD i '?'

/-- Base64-encode a byte list (each byte taken mod 256), with `=` padding:
a model of `base64.b64encode(...).decode("utf-8")`. -/
def b64Chunks : List ℕ → List Char
  | [] => []
  | [b1] =>
    let x1 := b1 % 256
    [b64Char (x1 / 4), b64Char (x1 % 4 * 16), '=', '=']
  | [b1, b2] =>
    let x1 := b1 % 256
    let x2 := b2 % 256
    [b64Char (x1 / 4), b64Char (x1 % 4 * 16 + x2 / 16), b64Char (x2 % 16 * 4), '=']
  | b1 :: b2 :: b3 :: rest =>
    let x1 := b1 % 256
    let x2 := b2 % 256
    let x3 := b3 % 256
    b64Char (x1 / 4) :: b64Char (x1 % 4 * 16 + x2 / 16) ::
      b64Char (x2 % 16 * 4 + x3 / 64) :: b64Char (x3 % 64) :: b64Chunks rest

/-- String form of the base64 encoding. -/
def b64encode (bs : List ℕ) : String := String.mk (b64Chunks bs)

/-- Model of `find_closest_frame`: Python's `min(frames, key=...)` keeps the
first element attaining the minimum; `none` models the `ValueError` raised
on an empty sequence. -/
def find_closest_frame (target : ℤ) (frames : List FrameD) : Option FrameD :=
  match frames with
  | [] => none
  | f :: fs =>
    some (fs.foldl (fun best g =>
      if qlt (qabs (qsub g.second (intQ target))) (qabs (qsub best.second (intQ target)))
      then g else best) f)

/-- A timestamped event dict as consumed by `attach_frames_to_events`
(`missed_opportunities` / `key_moments` entries). -/
structure EventD where
  time : Option String
  title : Option String
  description : Option String
  category : Option String
  frame_image : Option String
  frame_timestamp : Option String
deriving DecidableEq

/-- The body of the per-event `try` block: skip events with an unparseable
(or absent) time, and otherwise copy the closest frame's timestamp and
base64 image onto the event; `Except.error` models the exception `min`
raises on an empty frame list. -/
def attachEventTry (ev : EventD) (frames : List FrameD) : Except String EventD :=
  match parseTimeOpt ev.time with
  | none => .ok ev
  | some t =>
    match find_closest_frame t frames with
    | none => .error "min() arg is an empty sequence"
    | some c =>
      .ok { ev with frame_timestamp := some c.timestamp,
                    frame_image := some (b64encode c.bytes) }

/-- One loop iteration of `attach_frames_to_events`: the `except` handler
only sets the event's `frame_image` to `None`. -/
def attachEventStep (ev : EventD) (frames : List FrameD) : EventD :=
  match attachEventTry ev frames with
  | .ok ev2 => ev2
  | .error _ => { ev with frame_image := none }

/-- Model of `attach_frames_to_events` (src/main.py lines 92-103). -/
def attach_frames_to_events (events : List EventD) (frames : List FrameD) : List EventD :=
  events.map (fun ev => attachEventStep ev frames)

/-! ### `validate_analysis` (src/main.py lines 593-651)

The input dict is modelled as a record of `Option` fields (a missing key is
`none`).  Fields are assumed well-typed where present, as the claims under
test do; wholly ill-typed values would make the Python raise and are out of
this model. -/

/-- The `performance_grades` sub-dict. -/
structure GradesD where
  defense_grade : String
  offense_grade : String
  control_grade : String
deriving DecidableEq

/-- The `skill_breakdown` sub-dict. -/
structure SkillsD where
  offense : ℤ
  defense : ℤ
  guard : ℤ
  passing : ℤ
  standup : ℤ
deriving DecidableEq

/-- A recommended-drill dict (only its presence and count matter to
`validate_analysis`). -/
structure DrillD where
  name : Option String
  focus_area : Option String
  reason : Option String
  duration : Option String
  frequency : Option String
deriving DecidableEq

/-- The analysis dict flowing from JSON extraction into `validate_analysis`. -/
structure AnalysisData where
  overall_score : Option ℤ
  performance_label : Option String
  performance_grades : Option GradesD
  skill_breakdown : Option SkillsD
  strengths : Option (List String)
  weaknesses : Option (List String)
  missed_opportunities : Option (List EventD)
  key_moments : Option (List EventD)
  coach_notes : Option String
  recommended_drills : Option (List DrillD)
deriving DecidableEq

/-- Python's `max(0, min(100, s))`. -/
def clamp100 (s : ℤ) : ℤ := max 0 (min 100 s)

/-- The clamped score `validate_analysis` works with (65 when missing). -/
def clampedScore (d : AnalysisData) : ℤ := clamp100 (d.overall_score.getD 65)

/-- The fixed performance-label bands applied when the label is missing. -/
def labelForScore (score : ℤ) : String :=
  if score ≥ 85 then "EXCELLENT PERFORMANCE"
  else if score ≥ 75 then "STRONG PERFORMANCE"
  else if score ≥ 60 then "SOLID PERFORMANCE"
  else "DEVELOPING PERFORMANCE"

/-- Default strengths list. -/
def defaultStrengths : List String := ["Good structure", "Showed awareness", "Consistent"]

/-- Default weaknesses list. -/
def defaultWeaknesses : List String := ["More aggression", "Improve timing", "Work transitions"]

/-- Placeholder event substituted for an absent or empty event list. -/
def placeholderEvent : EventD :=
  { time := some "00:30", title := some "Key Moment",
    description := some "Review footage", category := some "POSITION",
    frame_image := none, frame_timestamp := none }

/-- Fallback coach notes. -/
def defaultCoachNotes : String := "Focus on fundamentals and consistent positioning."

/-- Default drills list substituted when fewer than 3 drills are present. -/
def defaultDrills : List DrillD :=
  [ { name := some "Position Control", focus_area := some "General",
      reason := some "Improve awareness", duration := some "15 min/day",
      frequency := some "5x/week" },
    { name := some "Guard Work", focus_area := some "Defense",
      reason := some "Strengthen defense", duration := some "10 min/day",
      frequency := some "4x/week" },
    { name := some "Transitions", focus_area := some "Movement",
      reason := some "Improve flow", duration := some "12 min/day",
      frequency := some "3x/week" } ]

/-- Model of `validate_analysis`: field-by-field defaulting.  Note the exact
source behaviour: strengths/weaknesses are truncated to 3 after defaulting,
event lists are replaced only when absent or empty, coach notes are replaced
when shorter than 50 characters, and `recommended_drills` is replaced when
fewer than 3 but is NOT truncated when longer. -/
def validate_analysis (d : AnalysisData) : AnalysisData :=
  let score := clamp100 (d.overall_score.getD 65)
  let label := match d.performance_label with
    | some l => l
    | none => labelForScore score
  let grades := d.performance_grades.getD
    { defense_grade := "C+", offense_grade := "C", control_grade := "C+" }
  let skills := d.skill_breakdown.getD
    { offense := clamp100 (score - 5), defense := clamp100 (score + 3),
      guard := clamp100 (score - 2), passing := clamp100 (score - 10),
      standup := clamp100 (score - 13) }
  let strengths := (match d.strengths with
    | some l => if l.length < 3 then defaultStrengths else l
    | none => defaultStrengths).take 3
  let weaknesses := (match d.weaknesses with
    | some l => if l.length < 3 then defaultWeaknesses else l
    | none => defaultWeaknesses).take 3
  let missed := match d.missed_opportunities with
    | some l => if l = [] then [placeholderEvent] else l
    | none => [placeholderEvent]
  let moments := match d.key_moments with
    | some l => if l = [] then [placeholderEvent] else l
    | none => [placeholderEvent]
  let notes := match d.coach_notes with
    | some s => if s.length < 50 then defaultCoachNotes else s
    | none => defaultCoachNotes
  let drills := match d.recommended_drills with
    | some l => if l.length < 3 then defaultDrills else l
    | none => defaultDrills
  { overall_score := some score, performance_label := some label,
    performance_grades := some grades, skill_breakdown := some skills,
    strengths := some strengths, weaknesses := some weaknesses,
    missed_opportunities := some missed, key_moments := some moments,
    coach_notes := some notes, recommended_drills := some drills }

/-- Model of `generate_fallback` (src/main.py lines 653-669). -/
def generate_fallback : AnalysisData :=
  { overall_score := some 65,
    performance_label := some "SOLID PERFORMANCE",
    performance_grades := some
      { defense_grade := "C+", offense_grade := "C", control_grade := "C+" },
    skill_breakdown := some
      { offense := 60, defense := 68, guard := 63, passing := 55, standup := 52 },
    strengths := some ["Maintained defensive structure", "Showed positional awareness",
                       "Consistent movement"],
    weaknesses := some ["Could be more aggressive", "Improve transition recognition",
                        "Work on timing"],
    missed_opportunities := some
      [ { time := some "00:30", title := some "Position",
          description := some "Review for openings", category := some "POSITION",
          frame_image := none, frame_timestamp := none } ],
    key_moments := some
      [ { time := some "00:15", title := some "Exchange",
          description := some "Positional work", category := some "TRANSITION",
          frame_image := none, frame_timestamp := none } ],
    coach_notes := some
      "Focus on fundamentals: maintain posture, control distance, look for position improvement.",
    recommended_drills := some
      [ { name := some "Positional Sparring", focus_area := some "General",
          reason := some "Develop awareness", duration := some "15 min/day",
          frequency := some "5x/week" },
        { name := some "Guard Work", focus_area := some "Defense",
          reason := some "Strengthen defense", duration := some "10 min/day",
          frequency := some "4x/week" },
        { name := some "Position Control", focus_area := some "Control",
          reason := some "Improve control", duration := some "12 min/day",
          frequency := some "3x/week" } ] }

/-! ### `extract_smart_weighted_frames` (src/main.py lines 152-259)

The cv2 capture is modelled as a `VideoSource`: whether it opens, the
reported fps and frame count, and a random-access decoder `read` returning
the processed (resized, JPEG-encoded) bytes of the frame at an index, or
`none` when `cap.read()` fails there.  The resize/encode step is a fixed
deterministic per-frame transform, so it is folded into `read`. -/

structure VideoSource where
  opened : Bool
  fps : ℚ
  total_frames : ℤ
  read : ℤ → Option (List ℕ)

/-- Duration `total_frames / fps if fps > 0 else 0`. -/
def videoDuration (v : VideoSource) : ℚ :=
  if qlt 0 v.fps then qdiv (intQ v.total_frames) v.fps else 0

/-- Duration-tiered target frame count (lines 171-176). -/
def total_to_extract (duration : ℚ) : ℕ :=
  if qle duration (intQ 30) then 14 else if qle duration (intQ 60) then 16 else 18

/-- `max(4, int(total * 0.25))` (line 183). -/
def start_frames (t : ℕ) : ℕ := max 4 (pyTrunc (qmul (intQ t) (mkRat 25 100))).toNat

/-- `max(6, int(total * 0.40))` (line 184). -/
def end_frames (t : ℕ) : ℕ := max 6 (pyTrunc (qmul (intQ t) (mkRat 40 100))).toNat

/-- `total - start - end`: the middle section absorbs the rounding (line 185). -/
def middle_frames (t : ℕ) : ℤ := (t : ℤ) - (start_frames t : ℤ) - (end_frames t : ℤ)

/-- `int(total_frames * 0.20)` (line 190). -/
def startSectionEnd (v : VideoSource) : ℤ := pyTrunc (qmul (intQ v.total_frames) (mkRat 20 100))

/-- `int(total_frames * 0.80)` (line 191). -/
def endSectionStart (v : VideoSource) : ℤ := pyTrunc (qmul (intQ v.total_frames) (mkRat 80 100))

/-- Model of `extract_frame_at_index` (lines 261-291).  With `fps = 0` the
timestamp computation `frame_idx / fps` raises `ZeroDivisionError`, which the
function's own `except` turns into `None`. -/
def extract_frame_at_index (v : VideoSource) (idx : ℤ) : Option FrameD :=
  match v.read idx with
  | none => none
  | some bs =>
    if v.fps.num = 0 then none
    else
      let ts : ℚ := qdiv (intQ idx) v.fps
      let m : ℤ := floorQ (qdiv ts (intQ 60))
      some { bytes := bs,
             timestamp := pyFmt02 m ++ ":" ++ pyFmt02 (floorQ (qsub ts (intQ (60 * m)))),
             second := round2 ts,
             frame_idx := idx }

/-- One section loop: walk the planned indices, stopping early once the
section's quota (counted by `p` over everything collected so far) is met;
frames that fail to extract are silently skipped. -/
def sectionPass (v : VideoSource) (idxs : List ℤ) (p : FrameD → Bool) (target : ℤ)
    (frames : List FrameD) : List FrameD :=
  match idxs with
  | [] => frames
  | i :: rest =>
    if target ≤ ((frames.filter p).length : ℤ) then frames
    else
      match extract_frame_at_index v i with
      | some f => sectionPass v rest p target (frames ++ [f])
      | none => sectionPass v rest p target frames

/-- The three weighted section passes (lines 195-225), in source order. -/
def collectFrames (v : VideoSource) : List FrameD :=
  let d := videoDuration v
  let t := total_to_extract d
  let sf := start_frames t
  let ef := end_frames t
  let mf := middle_frames t
  let sse := startSectionEnd v
  let ess := endSectionStart v
  let f1 := sectionPass v (pyRange 0 sse (max 1 (Int.fdiv sse (sf : ℤ))))
    (fun f => qlt f.second (qmul d (mkRat 20 100))) (sf : ℤ) []
  let f2 := sectionPass v (pyRange sse ess (max 1 (Int.fdiv (ess - sse) mf)))
    (fun f => qle (qmul d (mkRat 20 100)) f.second && qlt f.second (qmul d (mkRat 80 100)))
    mf f1
  sectionPass v (pyRange ess v.total_frames (max 1 (Int.fdiv (v.total_frames - ess) (ef : ℤ))))
    (fun f => qle (qmul d (mkRat 80 100)) f.second) (ef : ℤ) f2

/-- The bonus step (lines 227-231): always force-include the very last frame,
duplicate-checked by dict equality. -/
def framesWithLast (v : VideoSource) : List FrameD :=
  match extract_frame_at_index v (v.total_frames - 1) with
  | none => collectFrames v
  | some lf =>
    if lf ∈ collectFrames v then collectFrames v else collectFrames v ++ [lf]

/-- Ordering of frames by timestamp-in-seconds (the statement-level relation). -/
def frameLE (a b : FrameD) : Prop := a.second ≤ b.second

/-- Computable ordering of frames by timestamp-in-seconds. -/
def frameLEb (a b : FrameD) : Bool := qle a.second b.second

instance : DecidableRel (fun a b => frameLEb a b = true) :=
  fun a b => instDecidableEqBool _ _

instance : IsTotal FrameD (fun a b => frameLEb a b = true) :=
  ⟨by
    intro a b
    simp only [frameLEb, qle, decide_eq_true_eq]
    exact Int.le_total _ _⟩

instance : IsTrans FrameD (fun a b => frameLEb a b = true) :=
  ⟨by
    intro a b c hab hbc
    simp only [frameLEb, qle, decide_eq_true_eq] at hab hbc ⊢
    have hbpos : (0 : ℤ) < (b.second.den : ℤ) := Int.ofNat_pos.mpr b.second.pos
    have hapos : (0 : ℤ) ≤ (a.second.den : ℤ) := Int.ofNat_nonneg _
    have hcpos : (0 : ℤ) ≤ (c.second.den : ℤ) := Int.ofNat_nonneg _
    have h1 := mul_le_mul_of_nonneg_right hab hcpos
    have h2 := mul_le_mul_of_nonneg_right hbc hapos
    nlinarith [h1, h2, hbpos]⟩

/-- The final frame sequence: `frames.sort(key=lambda f: f["second"])`
(Python's sort is stable; only the ordering, not tie order, is claimed). -/
def sortedFramesOf (v : VideoSource) : List FrameD :=
  List.insertionSort (fun a b => frameLEb a b = true) (framesWithLast v)

/-- The metadata dict (lines 238-247). -/
structure MetadataD where
  duration : ℚ
  fps : ℚ
  frames_extracted : ℕ
  dist_start : ℕ
  dist_middle : ℤ
  dist_end : ℕ
deriving DecidableEq

/-- Metadata reported for a video. -/
def metadataOf (v : VideoSource) : MetadataD :=
  { duration := round2 (videoDuration v),
    fps := round2 v.fps,
    frames_extracted := (sortedFramesOf v).length,
    dist_start := start_frames (total_to_extract (videoDuration v)),
    dist_middle := middle_frames (total_to_extract (videoDuration v)),
    dist_end := end_frames (total_to_extract (videoDuration v)) }

/-- Model of `extract_smart_weighted_frames`: the only raising path is the
unopenable video (re-raised by the outer handler with the prefix below);
every other path returns the sorted frames and metadata. -/
def extract_smart_weighted_frames (v : VideoSource) :
    Except String (List FrameD × MetadataD) :=
  if v.opened = false then .error "Frame extraction failed: Cannot open video"
  else .ok (sortedFramesOf v, metadataOf v)

/-! ### Job orchestration (src/main.py lines 484-591, 673-731)

The external model call is an oracle: either the raw response text or a
transport failure.  `fast_accurate_analysis` catches every failure and
returns the fallback, marking `used_fallback` on the job record; on full
success the record's `used_fallback` key is never written. -/

/-- A `db_storage[analysis_id]` record. -/
structure JobRecord where
  status : String
  progress : ℕ
  used_fallback : Option Bool
  data : Option AnalysisData
deriving DecidableEq

/-- The record `start_analysis` creates before scheduling the task. -/
def initialJobRecord : JobRecord :=
  { status := "queued", progress := 0, used_fallback := none, data := none }

/-- Field of a JSON object (duplicate keys: last wins, as in `json.loads`). -/
def objField (kvs : List (String × Json)) (k : String) : Option Json :=
  ((kvs.filter (fun p => p.1 = k)).getLast?).map (fun p => p.2)

/-- Number of distinct keys of a JSON object, as Python's `len()` of the dict
produced by `json.loads` (which collapses duplicate keys). -/
def objKeyCount (kvs : List (String × Json)) : ℕ := ((kvs.map Prod.fst).dedup).length

/-- Python's `len()` of a parsed JSON value: defined on strings, lists and
dicts; `none` models the `TypeError` it raises elsewhere. -/
def pyLen : Json → Option ℕ
  | .str s => some s.length
  | .arr xs => some xs.length
  | .obj kvs => some (objKeyCount kvs)
  | _ => none

/-- Python falsiness of a parsed JSON value (`not value`). -/
def jsonFalsy : Json → Bool
  | .null => true
  | .bool b => !b
  | .num n => decide (n = 0)
  | .str s => decide (s = "")
  | .arr xs => xs.isEmpty
  | .obj kvs => kvs.isEmpty

/-- A required string field (`none` when absent or not a string — pydantic
performs no coercion into `str` on JSON input). -/
def decReqStr (kvs : List (String × Json)) (k : String) : Option String :=
  match objField kvs k with
  | some (.str s) => some s
  | _ => none

/-- A pydantic `Optional[str]` field: absent, a string, or JSON null; any
other value makes the constructor raise. -/
def decOptStrN (kvs : List (String × Json)) (k : String) : Option (Option String) :=
  match objField kvs k with
  | none => some none
  | some .null => some none
  | some (.str s) => some (some s)
  | some _ => none

/-- A required-string field that `validate_analysis` derives when absent
(`performance_label`): absent is fine, a string is fine, anything else is
kept by the repair step and then rejected by pydantic. -/
def decOptStr (kvs : List (String × Json)) (k : String) : Option (Option String) :=
  match objField kvs k with
  | none => some none
  | some (.str s) => some (some s)
  | some _ => none

/-- Decode of a timestamped-event dict, mirroring pydantic's
`TimestampedEvent`: `time`, `title` and `description` are required strings,
`category` and the two frame fields are `Optional[str]` (JSON null allowed),
extra keys are allowed (`extra="allow"`); anything else makes the real
constructor raise.  A non-dict element never reaches pydantic: iterating it
in `attach_frames_to_events` raises first — either way the job falls back,
which is `none` here. -/
def decEvent (j : Json) : Option EventD :=
  match j with
  | .obj kvs => do
    let time ← decReqStr kvs "time"
    let title ← decReqStr kvs "title"
    let description ← decReqStr kvs "description"
    let category ← decOptStrN kvs "category"
    let frame_image ← decOptStrN kvs "frame_image"
    let frame_timestamp ← decOptStrN kvs "frame_timestamp"
    pure { time := some time, title := some title, description := some description,
           category := category, frame_image := frame_image,
           frame_timestamp := frame_timestamp }
  | _ => none

/-- Decode of a drill dict, mirroring pydantic's `Drill`: `name`,
`focus_area` and `reason` are required strings, `duration` and `frequency`
are `Optional[str]` with defaults; anything else makes the constructor
raise. -/
def decDrill (j : Json) : Option DrillD :=
  match j with
  | .obj kvs => do
    let name ← decReqStr kvs "name"
    let focus_area ← decReqStr kvs "focus_area"
    let reason ← decReqStr kvs "reason"
    let duration ← decOptStrN kvs "duration"
    let frequency ← decOptStrN kvs "frequency"
    pure { name := some name, focus_area := some focus_area, reason := some reason,
           duration := duration, frequency := frequency }
  | _ => none

/-- Decode the grades object (`PerformanceGrades`: three required strings,
extra keys ignored). -/
def decGrades (j : Json) : Option GradesD :=
  match j with
  | .obj kvs => do
    let d ← decReqStr kvs "defense_grade"
    let o ← decReqStr kvs "offense_grade"
    let c ← decReqStr kvs "control_grade"
    pure { defense_grade := d, offense_grade := o, control_grade := c }
  | _ => none

/-- Decode the skill-breakdown object (`DetailedSkillBreakdown`: five
required ints; pydantic's lax coercion of numeric strings into int fields is
not modelled). -/
def decSkills (j : Json) : Option SkillsD :=
  match j with
  | .obj kvs => do
    let o ← match objField kvs "offense" with | some (.num n) => some n | _ => none
    let d ← match objField kvs "defense" with | some (.num n) => some n | _ => none
    let g ← match objField kvs "guard" with | some (.num n) => some n | _ => none
    let p ← match objField kvs "passing" with | some (.num n) => some n | _ => none
    let s ← match objField kvs "standup" with | some (.num n) => some n | _ => none
    pure { offense := o, defense := d, guard := g, passing := p, standup := s }
  | _ => none

/-- Decode of `overall_score`, following the clamp
`max(0, min(100, value))` that `validate_analysis` applies first: an int is
clamped later by the typed `validate_analysis`, `False` compares equal to 0
so the clamp turns it into the int 0, `True` survives the clamp as a bool
and is then rejected by pydantic's int field, and any other type makes the
clamp itself raise. -/
def decScore (kvs : List (String × Json)) : Option (Option ℤ) :=
  match objField kvs "overall_score" with
  | none => some none
  | some (.num n) => some (some n)
  | some (.bool false) => some (some 0)
  | some _ => none

/-- Decode of `strengths`/`weaknesses`: the repair step replaces an absent
value, or any value whose `len()` is below 3, wholesale with the default list
— so those decode to the absent field they are equivalent to.  A list of
length at least 3 is truncated to its first 3 elements before pydantic sees
it, so only those must be strings; a string or dict of `len()` at least 3 is
kept (a dict then makes the `[:3]` slice raise, a string survives slicing
and is rejected by pydantic's `List[str]`), and `len()` raises on anything
else — all routes to the fallback, hence `none`. -/
def decStrList3 (kvs : List (String × Json)) (k : String) : Option (Option (List String)) :=
  match objField kvs k with
  | none => some none
  | some v =>
    match pyLen v with
    | none => none
    | some n =>
      if n < 3 then some none
      else
        match v with
        | .arr xs =>
          ((xs.take 3).mapM (fun x => match x with
            | Json.str s => some s
            | _ => (none : Option String))).map some
        | _ => none

/-- Decode of `missed_opportunities`/`key_moments`: a falsy value (absent,
null, 0, False, "", empty list or dict) is replaced wholesale by the
placeholder event, same as an absent field; a truthy non-list makes frame
attachment raise; a list is kept and each element must pass `decEvent`. -/
def decEvents (kvs : List (String × Json)) (k : String) : Option (Option (List EventD)) :=
  match objField kvs k with
  | none => some none
  | some v =>
    if jsonFalsy v then some none
    else
      match v with
      | .arr xs => (xs.mapM decEvent).map some
      | _ => none

/-- Decode of `coach_notes`: a string is kept (the repair step itself
replaces short ones); an absent value, or a list/dict of `len()` under 50,
is replaced wholesale with the fallback sentence, same as absent; a
list/dict of `len()` at least 50 is kept and rejected by pydantic's `str`
field; `len()` raises on null/bool/number. -/
def decNotes (kvs : List (String × Json)) : Option (Option String) :=
  match objField kvs "coach_notes" with
  | none => some none
  | some (.str s) => some (some s)
  | some v =>
    match pyLen v with
    | none => none
    | some n => if n < 50 then some none else none

/-- Decode of `recommended_drills`: an absent value, or any value with
`len()` under 3, is replaced wholesale by the default list, same as absent;
a list of length at least 3 is kept untruncated, so every element must pass
`decDrill`; a string/dict of `len()` at least 3 is kept and rejected by
pydantic; `len()` raises elsewhere. -/
def decDrills (kvs : List (String × Json)) : Option (Option (List DrillD)) :=
  match objField kvs "recommended_drills" with
  | none => some none
  | some v =>
    match pyLen v with
    | none => none
    | some n =>
      if n < 3 then some none
      else
        match v with
        | .arr xs => (xs.mapM decDrill).map some
        | _ => none

/-- Decode from a parsed JSON value into the typed dict consumed by this
file's `validate_analysis`, approximating the fallible post-parse stage of
`fast_accurate_analysis`: the real `validate_analysis` on the raw dict,
frame attachment, and the pydantic `AnalysisResult` construction.  `none`
marks inputs on which that stage raises somewhere and the job falls back: a
non-dict top level, values whose clamp or `len()` raises, and kept values
pydantic rejects.  Values the repair step replaces wholesale before pydantic
ever sees them (absent fields, lists shorter than 3, falsy event lists,
short or non-string coach notes) decode to the absent field they are
equivalent to, so repair happens before any type check, as in the source.
The exact success boundary of the real stage is not fully characterized —
pydantic's lax numeric-string coercion into int fields, ill-typed event
frame fields that attachment overwrites before pydantic reads them, and
float values are outside the model — so no theorem below depends on this
boundary itself, only on the handler structure around the stage. -/
def decodeAnalysis (j : Json) : Option AnalysisData :=
  match j with
  | .obj kvs => do
    let score ← decScore kvs
    let label ← decOptStr kvs "performance_label"
    let grades ← match objField kvs "performance_grades" with
      | none => some none
      | some g => (decGrades g).map some
    let skills ← match objField kvs "skill_breakdown" with
      | none => some none
      | some sk => (decSkills sk).map some
    let strengths ← decStrList3 kvs "strengths"
    let weaknesses ← decStrList3 kvs "weaknesses"
    let missed ← decEvents kvs "missed_opportunities"
    let moments ← decEvents kvs "key_moments"
    let notes ← decNotes kvs
    let drills ← decDrills kvs
    pure { overall_score := score, performance_label := label,
           performance_grades := grades, skill_breakdown := skills,
           strengths := strengths, weaknesses := weaknesses,
           missed_opportunities := missed, key_moments := moments,
           coach_notes := notes, recommended_drills := drills }
  | _ => none

/-- Frame attachment applied after validation (lines 573-575). -/
def attachToResult (d : AnalysisData) (frames : List FrameD) : AnalysisData :=
  { d with
    missed_opportunities :=
      (d.missed_opportunities.getD []).map (fun ev => attachEventStep ev frames) |> some,
    key_moments :=
      (d.key_moments.getD []).map (fun ev => attachEventStep ev frames) |> some }

/-- Model of `fast_accurate_analysis` (lines 484-591): on any failure of the
model call, JSON extraction, or result construction, the `except` handler
marks the record's `used_fallback` and returns the fallback dict. -/
def fast_accurate_analysis (response : Except String String) (frames : List FrameD)
    (rec : JobRecord) : AnalysisData × JobRecord :=
  let rec1 : JobRecord := { rec with progress := 50 }
  match response with
  | .error _ => (generate_fallback, { rec1 with used_fallback := some true })
  | .ok text =>
    let rec2 : JobRecord := { rec1 with progress := 90 }
    match extract_json_from_text text with
    | .error _ => (generate_fallback, { rec2 with used_fallback := some true })
    | .ok j =>
      match decodeAnalysis j with
      | none => (generate_fallback, { rec2 with used_fallback := some true })
      | some d =>
        (attachToResult (validate_analysis d) frames, { rec2 with progress := 100 })

/-- The oracle inputs of one background job: the video source handed to the
sampler and the external model's response (or transport failure). -/
structure TaskEnv where
  video : VideoSource
  response : Except String String

/-- Model of `analyze_video_task` (lines 673-704): the outer handler absorbs
every failure into a completed-with-fallback record (file cleanup is an
external side effect, not modelled). -/
def analyze_video_task (env : TaskEnv) (rec : JobRecord) : JobRecord :=
  let rec1 : JobRecord := { rec with status := "processing", progress := 10 }
  match extract_smart_weighted_frames env.video with
  | .error _ =>
    { rec1 with status := "completed", data := some generate_fallback,
                used_fallback := some true }
  | .ok (frames, _) =>
    let (result, rec2) := fast_accurate_analysis env.response frames rec1
    { rec2 with status := "completed", data := some result }

/-- A full background job as scheduled by `start_analysis`. -/
def runJob (env : TaskEnv) : JobRecord := analyze_video_task env initialJobRecord

/-! ### Concrete fixtures used by the verified properties -/

/-- Whether at least one schema field is missing from the parsed dict. -/
def hasMissingField (d : AnalysisData) : Bool :=
  d.overall_score.isNone || d.performance_label.isNone || d.performance_grades.isNone ||
  d.skill_breakdown.isNone || d.strengths.isNone || d.weaknesses.isNone ||
  d.missed_opportunities.isNone || d.key_moments.isNone || d.coach_notes.isNone ||
  d.recommended_drills.isNone

/-- A video that opens, reports one frame and decodes every index, but whose
reported frame rate is 0 (a degenerate file cv2 handles exactly this way). -/
def vZeroFps : VideoSource :=
  { opened := true, fps := 0, total_frames := 1, read := fun _ => some [0] }

/-- A well-behaved 10-second, 1 fps, 10-frame video whose frame at index `i`
decodes to the byte `[i]`. -/
def vGood : VideoSource :=
  { opened := true, fps := 1, total_frames := 10,
    read := fun i => if (0 ≤ i ∧ i < 10) then some [i.toNat] else none }

/-- The frame `vGood` decodes at its final index. -/
def lastFrameOfvGood : FrameD :=
  { bytes := [9], timestamp := "00:09", second := 9, frame_idx := 9 }

/-- A job whose video and model call both succeed, the model returning the
(empty but parseable) JSON object. -/
def envOk : TaskEnv := { video := vGood, response := .ok "\x7b\x7d" }

/-- A job whose video cannot be opened. -/
def envBadVideo : TaskEnv :=
  { video := { opened := false, fps := 0, total_frames := 0, read := fun _ => none },
    response := .ok "\x7b\x7d" }

/-- A job whose external model call fails at the transport level. -/
def envModelError : TaskEnv := { video := vGood, response := .error "timeout" }

/-- A job whose model response contains no extractable JSON. -/
def envNoJson : TaskEnv := { video := vGood, response := .ok "no json here" }

/-- A parsed dict that is missing `overall_score` (among others) but carries
four well-formed recommended drills. -/
def dFourDrills : AnalysisData :=
  { overall_score := none, performance_label := none, performance_grades := none,
    skill_breakdown := none, strengths := none, weaknesses := none,
    missed_opportunities := none, key_moments := none, coach_notes := none,
    recommended_drills := some
      [ { name := some "A", focus_area := some "a", reason := some "r",
          duration := some "5 min", frequency := some "daily" },
        { name := some "B", focus_area := some "b", reason := some "r",
          duration := some "5 min", frequency := some "daily" },
        { name := some "C", focus_area := some "c", reason := some "r",
          duration := some "5 min", frequency := some "daily" },
        { name := some "D", focus_area := some "d", reason := some "r",
          duration := some "5 min", frequency := some "daily" } ] }

/-- A fully-valid, in-range analysis dict (3 strengths/weaknesses/drills,
non-empty event lists, coach notes of at least 50 characters). -/
def dValid : AnalysisData :=
  { overall_score := some 82,
    performance_label := some "STRONG PERFORMANCE",
    performance_grades := some
      { defense_grade := "B+", offense_grade := "A-", control_grade := "B" },
    skill_breakdown := some
      { offense := 85, defense := 78, guard := 80, passing := 70, standup := 65 },
    strengths := some ["Sharp entries", "Strong finishes", "Good posture"],
    weaknesses := some ["Late frames", "Guard retention", "Grip timing"],
    missed_opportunities := some
      [ { time := some "00:20", title := some "Sweep window",
          description := some "Missed butterfly sweep", category := some "SWEEP",
          frame_image := none, frame_timestamp := none } ],
    key_moments := some
      [ { time := some "00:40", title := some "Back take",
          description := some "Clean back take", category := some "TRANSITION",
          frame_image := none, frame_timestamp := none } ],
    coach_notes := some
      "Excellent pace throughout; keep attacking the back and tighten your finishing grips.",
    recommended_drills := some
      [ { name := some "Back attacks", focus_area := some "Offense",
          reason := some "Finish rate", duration := some "15 min/day",
          frequency := some "5x/week" },
        { name := some "Guard retention", focus_area := some "Defense",
          reason := some "Fewer passes", duration := some "10 min/day",
          frequency := some "4x/week" },
        { name := some "Grip fighting", focus_area := some "Control",
          reason := some "Earlier control", duration := some "12 min/day",
          frequency := some "3x/week" } ] }

/-! ## Theorems -/

/-! ### Bridges between the computable rational primitives and Mathlib -/

theorem intQ_eq (n : ℤ) : intQ n = (n : ℚ) := Rat.mkRat_one n

theorem rat_lt_iff (a b : ℚ) : a < b ↔ a.num * (b.den : ℤ) < b.num * (a.den : ℤ) := by
  conv_lhs => rw [← Rat.num_div_den a, ← Rat.num_div_den b]
  rw [div_lt_div_iff (by exact_mod_cast a.pos) (by exact_mod_cast b.pos)]
  exact_mod_cast Iff.rfl

theorem rat_le_iff (a b : ℚ) : a ≤ b ↔ a.num * (b.den : ℤ) ≤ b.num * (a.den : ℤ) := by
  conv_lhs => rw [← Rat.num_div_den a, ← Rat.num_div_den b]
  rw [div_le_div_iff (by exact_mod_cast a.pos) (by exact_mod_cast b.pos)]
  exact_mod_cast Iff.rfl

theorem qlt_eq (a b : ℚ) : qlt a b = decide (a < b) :=
  decide_eq_decide.mpr (rat_lt_iff a b).symm

theorem qle_eq (a b : ℚ) : qle a b = decide (a ≤ b) :=
  decide_eq_decide.mpr (rat_le_iff a b).symm

theorem qmul_eq (a b : ℚ) : qmul a b = a * b := by
  unfold qmul
  rw [Rat.mkRat_eq_divInt, Rat.divInt_eq_div]
  conv_rhs => rw [← Rat.num_div_den a, ← Rat.num_div_den b]
  rw [div_mul_div_comm]
  push_cast
  ring

theorem qadd_eq (a b : ℚ) : qadd a b = a + b := by
  unfold qadd
  rw [Rat.mkRat_eq_divInt, Rat.divInt_eq_div]
  conv_rhs => rw [← Rat.num_div_den a, ← Rat.num_div_den b]
  rw [div_add_div _ _ (by exact_mod_cast a.den_nz) (by exact_mod_cast b.den_nz)]
  push_cast
  ring_nf

theorem qsub_eq (a b : ℚ) : qsub a b = a - b := by
  unfold qsub
  rw [Rat.mkRat_eq_divInt, Rat.divInt_eq_div]
  conv_rhs => rw [← Rat.num_div_den a, ← Rat.num_div_den b]
  rw [div_sub_div _ _ (by exact_mod_cast a.den_nz) (by exact_mod_cast b.den_nz)]
  push_cast
  ring_nf

theorem qabs_eq (a : ℚ) : qabs a = |a| := by
  unfold qabs
  rcases le_or_lt 0 a with h | h
  · rw [abs_of_nonneg h, abs_of_nonneg (Rat.num_nonneg.mpr h), Rat.mkRat_self]
  · rw [abs_of_neg h, abs_of_neg (Rat.num_neg.mpr h), ← Rat.neg_mkRat, Rat.mkRat_self]

theorem qdiv_eq (a b : ℚ) : qdiv a b = a / b := by
  unfold qdiv
  by_cases hb : b.num = 0
  · rw [hb]
    simp [Rat.num_eq_zero.mp hb, Rat.zero_mkRat]
  · have hbQ : b ≠ 0 := fun h => hb (by rw [h]; rfl)
    have hbden : ((b.den : ℤ) : ℚ) ≠ 0 := by exact_mod_cast b.den_nz
    have haden : ((a.den : ℤ) : ℚ) ≠ 0 := by exact_mod_cast a.den_nz
    have hbnum : ((b.num : ℤ) : ℚ) ≠ 0 := by exact_mod_cast hb
    rw [Rat.mkRat_eq_divInt, Rat.divInt_eq_div]
    conv_rhs => rw [← Rat.num_div_den a, ← Rat.num_div_den b]
    rw [div_div_div_comm]
    push_cast
    rcases lt_or_gt_of_ne hb with hneg | hpos
    · rw [Int.sign_eq_neg_one_of_neg hneg,
        abs_of_neg (show ((b.num : ℚ)) < 0 by exact_mod_cast hneg)]
      push_cast
      field_simp
      exact Or.inl (by ring)
    · rw [Int.sign_eq_one_of_pos hpos,
        abs_of_pos (show (0 : ℚ) < (b.num : ℚ) by exact_mod_cast hpos)]
      push_cast
      field_simp
      exact Or.inl (by ring)

theorem frameLEb_iff (a b : FrameD) : frameLEb a b = true ↔ frameLE a b := by
  rw [frameLEb, qle_eq, decide_eq_true_eq]
  exact Iff.rfl

/-- C10: `parse_time_to_seconds` searches the `mm:ss` pattern anywhere in the
string without validating the seconds below 60: whenever the leftmost regex
match captures `(mm, ss)` the result is `60*mm + ss` (so "00:99" gives 99 and
"at 1:05 mark" gives 65), and empty or matchless input gives `None`. -/
theorem C10_parse_time_search_semantics (s : String) :
    parse_time_to_seconds "" = none ∧
    (firstMatch s.data = none → parse_time_to_seconds s = none) ∧
    (∀ mm ss : ℕ, firstMatch s.data = some (mm, ss) →
      parse_time_to_seconds s = some (60 * (mm : ℤ) + (ss : ℤ))) ∧
    parse_time_to_seconds "00:99" = some 99 ∧
    parse_time_to_seconds "at 1:05 mark" = some 65 := by
  refine ⟨rfl, ?_, ?_, rfl, rfl⟩
  · intro h
    by_cases hs : s = "" <;> simp [parse_time_to_seconds, hs, h]
  · intro mm ss h
    by_cases hs : s = ""
    · subst hs
      simp [firstMatch] at h
    · simp [parse_time_to_seconds, hs, h]

/-- C10 witness: the pattern-match clause applied at the concrete input
"7:03", whose first match captures (7, 3). -/
theorem C10_parse_time_search_semantics_witness :
    parse_time_to_seconds "7:03" = some 423 :=
  (C10_parse_time_search_semantics "7:03").2.2.1 7 3 rfl

/-- Helper: the fold in `find_closest_frame` returns an element of the list,
that element attains the minimum distance, and everything strictly before its
first occurrence has strictly larger distance (the linear minimum scan keeps
the earliest minimum). -/
theorem foldMin_first (t : ℚ) (fs : List FrameD) (f0 : FrameD) :
    ∃ pre suf,
      f0 :: fs = pre ++
        (fs.foldl (fun best g => if |g.second - t| < |best.second - t| then g else best) f0)
        :: suf ∧
      (∀ g ∈ pre,
        |(fs.foldl (fun best g => if |g.second - t| < |best.second - t| then g else best)
            f0).second - t| < |g.second - t|) ∧
      (∀ g ∈ f0 :: fs,
        |(fs.foldl (fun best g => if |g.second - t| < |best.second - t| then g else best)
            f0).second - t| ≤ |g.second - t|) := by
  induction fs generalizing f0 with
  | nil =>
    refine ⟨[], [], rfl, by simp, ?_⟩
    intro g hg
    simp at hg
    simp [hg]
  | cons g gs ih =>
    simp only [List.foldl_cons]
    by_cases hc : |g.second - t| < |f0.second - t|
    · simp only [if_pos hc]
      obtain ⟨pre, suf, heq, hstrict, hle⟩ := ih g
      refine ⟨f0 :: pre, suf, by rw [heq]; rfl, ?_, ?_⟩
      · intro x hx
        rcases List.mem_cons.mp hx with hx0 | hxp
        · subst hx0
          exact lt_of_le_of_lt (hle g (by simp)) hc
        · exact hstrict x hxp
      · intro x hx
        rcases List.mem_cons.mp hx with hx0 | hxr
        · subst hx0
          exact le_of_lt (lt_of_le_of_lt (hle g (by simp)) hc)
        · exact hle x hxr
    · simp only [if_neg hc]
      push_neg at hc
      obtain ⟨pre, suf, heq, hstrict, hle⟩ := ih f0
      cases pre with
      | nil =>
        simp only [List.nil_append] at heq
        have hm : (gs.foldl (fun best g => if |g.second - t| < |best.second - t| then g
            else best) f0) = f0 := (List.cons.injEq _ _ _ _ ▸ heq).1.symm
        refine ⟨[], g :: gs, by rw [hm]; rfl, by simp, ?_⟩
        intro x hx
        rcases List.mem_cons.mp hx with hx0 | hxr
        · subst hx0
          rw [hm]
        · rcases List.mem_cons.mp hxr with hx1 | hx2
          · subst hx1
            rw [hm]
            exact hc
          · exact hle x (by simp [hx2])
      | cons p ps =>
        simp only [List.cons_append, List.cons.injEq] at heq
        obtain ⟨hp, hgs⟩ := heq
        subst hp
        have hf0 : |(gs.foldl (fun best g => if |g.second - t| < |best.second - t| then g
            else best) f0).second - t| < |f0.second - t| :=
          hstrict f0 (by simp)
        refine ⟨f0 :: g :: ps, suf, ?_, ?_, ?_⟩
        · conv_lhs => rw [hgs]
          simp
        · intro x hx
          rcases List.mem_cons.mp hx with hx0 | hxr
          · subst hx0
            exact hf0
          · rcases List.mem_cons.mp hxr with hx1 | hx2
            · subst hx1
              exact lt_of_lt_of_le hf0 hc
            · exact hstrict x (by simp [hx2])
        · intro x hx
          rcases List.mem_cons.mp hx with hx0 | hxr
          · subst hx0
            exact hle _ (List.mem_cons_self _ _)
          · rcases List.mem_cons.mp hxr with hx1 | hx2
            · subst hx1
              exact le_trans (le_of_lt hf0) hc
            · exact hle x (by simp [hx2])

/-- C6: for a non-empty frame list and an event whose time parses, attachment
copies the base64 image and timestamp of the frame whose second is closest to
the event time, with exact ties resolved to the earliest frame of the linear
minimum scan. -/
theorem C6_attachment_picks_closest_frame (ev : EventD) (frames : List FrameD)
    (t : ℤ) (c : FrameD)
    (ht : parseTimeOpt ev.time = some t)
    (hc : find_closest_frame t frames = some c) :
    attachEventStep ev frames
      = { ev with frame_timestamp := some c.timestamp,
                  frame_image := some (b64encode c.bytes) } ∧
    (∀ g ∈ frames, |c.second - (t : ℚ)| ≤ |g.second - (t : ℚ)|) ∧
    (∃ pre suf, frames = pre ++ c :: suf ∧
      ∀ g ∈ pre, |c.second - (t : ℚ)| < |g.second - (t : ℚ)|) := by
  cases frames with
  | nil => simp [find_closest_frame] at hc
  | cons f0 fs =>
    simp only [find_closest_frame, Option.some.injEq] at hc
    have hfun : (fun (best g : FrameD) =>
        if qlt (qabs (qsub g.second (intQ t))) (qabs (qsub best.second (intQ t)))
        then g else best)
      = fun (best g : FrameD) =>
        if |g.second - (t : ℚ)| < |best.second - (t : ℚ)| then g else best := by
      funext best g
      simp only [qsub_eq, qabs_eq, qlt_eq, intQ_eq, decide_eq_true_eq]
    rw [hfun] at hc
    obtain ⟨pre, suf, heq, hstrict, hle⟩ := foldMin_first (t : ℚ) fs f0
    rw [hc] at heq hstrict hle
    refine ⟨?_, hle, pre, suf, heq, hstrict⟩
    simp [attachEventStep, attachEventTry, ht, find_closest_frame, hfun, hc]

/-- C6 witness: frames at seconds [2, 10, 40] and an event at "00:09" attach
the frame at second 10. -/
theorem C6_attachment_picks_closest_frame_witness :
    parseTimeOpt (some "00:09") = some 9 ∧
    attachEventStep
      { time := some "00:09", title := some "Sweep", description := none,
        category := none, frame_image := none, frame_timestamp := none }
      [ { bytes := [2], timestamp := "00:02", second := 2, frame_idx := 2 },
        { bytes := [10], timestamp := "00:10", second := 10, frame_idx := 10 },
        { bytes := [40], timestamp := "00:40", second := 40, frame_idx := 40 } ]
      = { time := some "00:09", title := some "Sweep", description := none,
          category := none,
          frame_image := some (b64encode [10]),
          frame_timestamp := some "00:10" } :=
  ⟨rfl,
    (C6_attachment_picks_closest_frame
      { time := some "00:09", title := some "Sweep", description := none,
        category := none, frame_image := none, frame_timestamp := none }
      [ { bytes := [2], timestamp := "00:02", second := 2, frame_idx := 2 },
        { bytes := [10], timestamp := "00:10", second := 10, frame_idx := 10 },
        { bytes := [40], timestamp := "00:40", second := 40, frame_idx := 40 } ]
      9
      { bytes := [10], timestamp := "00:10", second := 10, frame_idx := 10 }
      rfl (by decide)).1⟩

/-- C9: attachment never propagates an exception: every event of the batch is
processed independently, an unparseable time leaves the event untouched, and
a per-event failure (the empty-frame `min`) only nulls that event's
`frame_image`. -/
theorem C9_attachment_isolates_failures (events : List EventD) (frames : List FrameD) :
    (attach_frames_to_events events frames).length = events.length ∧
    (∀ i ev, events.get? i = some ev →
      (attach_frames_to_events events frames).get? i = some (attachEventStep ev frames) ∧
      (parseTimeOpt ev.time = none → attachEventStep ev frames = ev) ∧
      (∀ msg, attachEventTry ev frames = .error msg →
        attachEventStep ev frames = { ev with frame_image := none })) := by
  refine ⟨by simp [attach_frames_to_events], ?_⟩
  intro i ev hi
  rw [List.get?_eq_getElem?] at hi
  refine ⟨by rw [List.get?_eq_getElem?]; simp [attach_frames_to_events, List.getElem?_map, hi], ?_, ?_⟩
  · intro hparse
    simp [attachEventStep, attachEventTry, hparse]
  · intro msg herr
    simp [attachEventStep, herr]

/-- C9 witness: a batch with an unparseable-time event followed by a
parseable one, against an empty frame list: the first event is untouched,
the second only loses its image, and both are processed. -/
theorem C9_attachment_isolates_failures_witness :
    (attach_frames_to_events
      [ { time := some "garbage", title := none, description := none,
          category := none, frame_image := none, frame_timestamp := none },
        { time := some "00:05", title := none, description := none,
          category := none, frame_image := some "stale", frame_timestamp := none } ]
      []).length = 2 ∧
    attachEventStep
      { time := some "garbage", title := none, description := none,
        category := none, frame_image := none, frame_timestamp := none } []
      = { time := some "garbage", title := none, description := none,
          category := none, frame_image := none, frame_timestamp := none } ∧
    attachEventStep
      { time := some "00:05", title := none, description := none,
        category := none, frame_image := some "stale", frame_timestamp := none } []
      = { time := some "00:05", title := none, description := none,
          category := none, frame_image := none, frame_timestamp := none } := by
  have h := C9_attachment_isolates_failures
    [ { time := some "garbage", title := none, description := none,
        category := none, frame_image := none, frame_timestamp := none },
      { time := some "00:05", title := none, description := none,
        category := none, frame_image := some "stale", frame_timestamp := none } ]
    []
  exact ⟨h.1, ((h.2 0 _ rfl).2.1 rfl), ((h.2 1 _ rfl).2.2 _ rfl)⟩

/-- C1 counterexample: the text `x{y} {"a": 1}` contains the balanced JSON
object `{"a": 1}` as a substring, yet `extract_json_from_text` raises: the
brace scan anchors on the FIRST `{`, whose matched substring `{y}` is not
valid JSON, so the claim's "anywhere" fails. -/
theorem C1_counterexample :
    List.IsInfix ("\x7b\"a\": 1\x7d".data) ("x\x7by\x7d \x7b\"a\": 1\x7d".data) ∧
    jsonLoads ("\x7b\"a\": 1\x7d".data) = some (Json.obj [("a", Json.num 1)]) ∧
    (extract_json_from_text "x\x7by\x7d \x7b\"a\": 1\x7d").toOption = none :=
  ⟨by decide, rfl, rfl⟩

/-- C1 (amended): extraction succeeds whenever the segment from the first `{`
of the effective stage-3 text (the stripped input, narrowed to the first
fenced block when a code fence is present) to its depth-matching `}` parses
as JSON; when additionally the stripped text is not itself JSON and carries
no fence marker, the returned object is exactly that parse. -/
theorem C1_extract_json_succeeds (s : String) (v : Json)
    (h : (braceSub (stage3Text (pyStrip s.data))).bind jsonLoads = some v) :
    (extract_json_from_text s).toOption.isSome = true ∧
    (jsonLoads (pyStrip s.data) = none → fenceMarked (pyStrip s.data) = false →
      extract_json_from_text s = .ok v) := by
  constructor
  · cases h1 : jsonLoads (pyStrip s.data) with
    | some w => simp [extract_json_from_text, h1, Except.toOption]
    | none =>
      cases h2 : (if fenceMarked (pyStrip s.data)
          then jsonLoads (pyStrip (fenceInner (pyStrip s.data))) else none) with
      | some w => simp [extract_json_from_text, h1, h2, Except.toOption]
      | none => simp [extract_json_from_text, h1, h2, h, Except.toOption]
  · intro h1 h2
    have h2' : (if fenceMarked (pyStrip s.data)
        then jsonLoads (pyStrip (fenceInner (pyStrip s.data))) else none)
        = none := by rw [h2]; rfl
    simp [extract_json_from_text, h1, h2', h]

/-- C1 witness: prose around a single balanced object, no fence, direct parse
failing: extraction returns exactly that object. -/
theorem C1_extract_json_succeeds_witness :
    (braceSub (stage3Text (pyStrip ("noise \x7b\"a\": 1\x7d end").data))).bind jsonLoads
        = some (Json.obj [("a", Json.num 1)]) ∧
    extract_json_from_text "noise \x7b\"a\": 1\x7d end" = .ok (Json.obj [("a", Json.num 1)]) :=
  ⟨rfl, (C1_extract_json_succeeds "noise \x7b\"a\": 1\x7d end"
    (Json.obj [("a", Json.num 1)]) rfl).2 rfl rfl⟩

/-- C2 counterexample: on a dict missing `overall_score` but carrying four
recommended drills, `validate_analysis` keeps all four drills — the claimed
"exactly 3 recommended drills" fails because the source replaces short drill
lists but never truncates long ones. -/
theorem C2_counterexample :
    dFourDrills.overall_score = none ∧
    ((validate_analysis dFourDrills).recommended_drills.map List.length) = some 4 :=
  ⟨rfl, rfl⟩

/-- C2 (amended): for any dict with missing fields, `validate_analysis`
returns a fully-populated schema: score present and clamped to [0,100],
exactly 3 strengths and weaknesses, at least 3 recommended drills (exactly 3
when fewer than 3 were supplied), non-empty event lists, and a label derived
from the clamped score by the fixed bands when the label was missing. -/
theorem C2_validate_fills_schema (d : AnalysisData) (h : hasMissingField d = true) :
    (∃ s, (validate_analysis d).overall_score = some s ∧ 0 ≤ s ∧ s ≤ 100) ∧
    (validate_analysis d).performance_label.isSome = true ∧
    (validate_analysis d).performance_grades.isSome = true ∧
    (validate_analysis d).skill_breakdown.isSome = true ∧
    (∃ l, (validate_analysis d).strengths = some l ∧ l.length = 3) ∧
    (∃ l, (validate_analysis d).weaknesses = some l ∧ l.length = 3) ∧
    (∃ l, (validate_analysis d).missed_opportunities = some l ∧ l ≠ []) ∧
    (∃ l, (validate_analysis d).key_moments = some l ∧ l ≠ []) ∧
    (validate_analysis d).coach_notes.isSome = true ∧
    (∃ l, (validate_analysis d).recommended_drills = some l ∧ 3 ≤ l.length) ∧
    (d.performance_label = none →
      (validate_analysis d).performance_label = some (labelForScore (clampedScore d))) := by
  refine ⟨⟨clamp100 (d.overall_score.getD 65), rfl, ?_, ?_⟩, rfl, rfl, rfl, ?_, ?_, ?_, ?_,
    rfl, ?_, ?_⟩
  · unfold clamp100
    omega
  · unfold clamp100
    omega
  · refine ⟨_, rfl, ?_⟩
    cases hs : d.strengths with
    | none => rfl
    | some l =>
      simp only
      split
      · rfl
      · rename_i hlen
        simp [List.length_take]
        omega
  · refine ⟨_, rfl, ?_⟩
    cases hs : d.weaknesses with
    | none => rfl
    | some l =>
      simp only
      split
      · rfl
      · rename_i hlen
        simp [List.length_take]
        omega
  · refine ⟨_, rfl, ?_⟩
    cases hs : d.missed_opportunities with
    | none => simp
    | some l =>
      simp only
      split
      · simp
      · assumption
  · refine ⟨_, rfl, ?_⟩
    cases hs : d.key_moments with
    | none => simp
    | some l =>
      simp only
      split
      · simp
      · assumption
  · refine ⟨_, rfl, ?_⟩
    cases hs : d.recommended_drills with
    | none => decide
    | some l =>
      simp only
      split
      · decide
      · omega
  · intro hl
    simp [validate_analysis, hl, clampedScore]

/-- C2 witness: the amended schema facts instantiated at the four-drill,
missing-score dict. -/
theorem C2_validate_fills_schema_witness :
    hasMissingField dFourDrills = true ∧
    (∃ s, (validate_analysis dFourDrills).overall_score = some s ∧ 0 ≤ s ∧ s ≤ 100) ∧
    (∃ l, (validate_analysis dFourDrills).recommended_drills = some l ∧ 3 ≤ l.length) :=
  ⟨rfl, (C2_validate_fills_schema dFourDrills rfl).1,
    (C2_validate_fills_schema dFourDrills rfl).2.2.2.2.2.2.2.2.2.1⟩

/-- C7: `validate_analysis` is the identity on an already fully-valid,
in-range dict (all fields present, score within [0,100], exactly 3
strengths/weaknesses/drills, non-empty event lists, coach notes of at least
50 characters). -/
theorem C7_validate_idempotent (d : AnalysisData)
    (os : ℤ) (h1 : d.overall_score = some os) (h1a : 0 ≤ os) (h1b : os ≤ 100)
    (lb : String) (h2 : d.performance_label = some lb)
    (gr : GradesD) (h3 : d.performance_grades = some gr)
    (sk : SkillsD) (h4 : d.skill_breakdown = some sk)
    (st : List String) (h5 : d.strengths = some st) (h5a : st.length = 3)
    (wk : List String) (h6 : d.weaknesses = some wk) (h6a : wk.length = 3)
    (mo : List EventD) (h7 : d.missed_opportunities = some mo) (h7a : mo ≠ [])
    (km : List EventD) (h8 : d.key_moments = some km) (h8a : km ≠ [])
    (cn : String) (h9 : d.coach_notes = some cn) (h9a : 50 ≤ cn.length)
    (dr : List DrillD) (h10 : d.recommended_drills = some dr) (h10a : dr.length = 3) :
    validate_analysis d = d := by
  cases d
  simp only at h1 h2 h3 h4 h5 h6 h7 h8 h9 h10
  subst h1 h2 h3 h4 h5 h6 h7 h8 h9 h10
  simp only [validate_analysis, Option.getD_some]
  rw [show clamp100 os = os by unfold clamp100; omega,
    if_neg (show ¬ st.length < 3 by omega),
    if_neg (show ¬ wk.length < 3 by omega),
    if_neg h7a, if_neg h8a,
    if_neg (show ¬ cn.length < 50 by omega),
    if_neg (show ¬ dr.length < 3 by omega),
    List.take_of_length_le (le_of_eq h5a),
    List.take_of_length_le (le_of_eq h6a)]

/-- C7 witness: normalizing the concrete valid dict `dValid` is a no-op. -/
theorem C7_validate_idempotent_witness : validate_analysis dValid = dValid :=
  C7_validate_idempotent dValid
    82 rfl (by decide) (by decide)
    "STRONG PERFORMANCE" rfl
    { defense_grade := "B+", offense_grade := "A-", control_grade := "B" } rfl
    { offense := 85, defense := 78, guard := 80, passing := 70, standup := 65 } rfl
    ["Sharp entries", "Strong finishes", "Good posture"] rfl rfl
    ["Late frames", "Guard retention", "Grip timing"] rfl rfl
    _ rfl (by decide)
    _ rfl (by decide)
    _ rfl (by decide)
    _ rfl rfl

/-- C3: the sampling plan's three-way allocation always sums to the chosen
tier (the middle absorbs the rounding), the tier is 14/16/18 by duration, the
per-tier start/end floors work out to (4,6), (4,6) and (4,7), and a 20-second
video gets tier 14. -/
theorem C3_sampling_plan (d : ℚ) (h : 0 ≤ d) :
    ((start_frames (total_to_extract d) : ℤ) + middle_frames (total_to_extract d)
        + (end_frames (total_to_extract d) : ℤ) = (total_to_extract d : ℤ)) ∧
    (d ≤ 30 → total_to_extract d = 14) ∧
    (30 < d → d ≤ 60 → total_to_extract d = 16) ∧
    (60 < d → total_to_extract d = 18) ∧
    (start_frames 14 = 4 ∧ end_frames 14 = 6 ∧ middle_frames 14 = 4) ∧
    (start_frames 16 = 4 ∧ end_frames 16 = 6 ∧ middle_frames 16 = 6) ∧
    (start_frames 18 = 4 ∧ end_frames 18 = 7 ∧ middle_frames 18 = 7) ∧
    total_to_extract 20 = 14 := by
  have h30 : qle d (intQ 30) = true ↔ d ≤ 30 := by
    rw [qle_eq, decide_eq_true_eq, intQ_eq]
    exact_mod_cast Iff.rfl
  have h60 : qle d (intQ 60) = true ↔ d ≤ 60 := by
    rw [qle_eq, decide_eq_true_eq, intQ_eq]
    exact_mod_cast Iff.rfl
  refine ⟨by unfold middle_frames; ring, ?_, ?_, ?_, by decide, by decide, by decide, by decide⟩
  · intro hd
    unfold total_to_extract
    rw [if_pos (h30.mpr hd)]
  · intro hd1 hd2
    unfold total_to_extract
    rw [if_neg (fun hc => absurd (h30.mp hc) (not_le.mpr hd1)), if_pos (h60.mpr hd2)]
  · intro hd
    unfold total_to_extract
    rw [if_neg (fun hc => absurd (h30.mp hc) (not_le.mpr (by linarith))),
      if_neg (fun hc => absurd (h60.mp hc) (not_le.mpr hd))]

/-- C3 witness: the plan at the concrete 20-second duration. -/
theorem C3_sampling_plan_witness :
    (0 : ℚ) ≤ 20 ∧ total_to_extract 20 = 14 ∧
    ((start_frames 14 : ℤ) + middle_frames 14 + (end_frames 14 : ℤ) = 14) :=
  ⟨by norm_num, (C3_sampling_plan 20 (by norm_num)).2.2.2.2.2.2.2,
    by
      have hsum := (C3_sampling_plan 20 (by norm_num)).1
      have h20 := (C3_sampling_plan 20 (by norm_num)).2.2.2.2.2.2.2
      rw [h20] at hsum
      exact_mod_cast hsum⟩

/-- C4 counterexample: on a fully successful job (good video, model answering
the parseable object text) the completed record carries NO `used_fallback`
key at all — the claimed "always accompanied by an explicit used_fallback
boolean" fails on the success path. -/
theorem C4_counterexample :
    (runJob envOk).status = "completed" ∧ (runJob envOk).used_fallback = none :=
  ⟨rfl, rfl⟩

/-- C4 (amended): every job reaches terminal status "completed" with a result
attached and no raw exception surfaced; the record's `used_fallback` key is
only ever written as true by the failure handlers — in particular whenever
the video cannot be opened, the model call fails, or JSON extraction fails —
so a completed record carries `used_fallback = true` or no key at all, never
an explicit false. -/
theorem C4_job_completes_with_fallback_flag (env : TaskEnv) :
    (runJob env).status = "completed" ∧
    (runJob env).data.isSome = true ∧
    ((runJob env).used_fallback = some true ∨ (runJob env).used_fallback = none) ∧
    (env.video.opened = false → (runJob env).used_fallback = some true) ∧
    (∀ e, env.response = .error e → (runJob env).used_fallback = some true) ∧
    (∀ t, env.response = .ok t → (extract_json_from_text t).toOption = none →
      (runJob env).used_fallback = some true) := by
  cases hop : env.video.opened with
  | false =>
    refine ⟨?_, ?_, ?_, ?_, ?_, ?_⟩ <;>
      simp [runJob, analyze_video_task, extract_smart_weighted_frames, hop,
        initialJobRecord]
  | true =>
    cases hresp : env.response with
    | error e =>
      refine ⟨?_, ?_, ?_, ?_, ?_, ?_⟩ <;>
        simp [runJob, analyze_video_task, extract_smart_weighted_frames, hop,
          fast_accurate_analysis, hresp, initialJobRecord]
    | ok t =>
      cases hjson : extract_json_from_text t with
      | error msg =>
        refine ⟨?_, ?_, ?_, ?_, ?_, ?_⟩ <;>
          simp [runJob, analyze_video_task, extract_smart_weighted_frames, hop,
            fast_accurate_analysis, hresp, hjson, initialJobRecord, Except.toOption]
      | ok j =>
        cases hdec : decodeAnalysis j with
        | none =>
          refine ⟨?_, ?_, ?_, ?_, ?_, ?_⟩ <;>
            simp [runJob, analyze_video_task, extract_smart_weighted_frames, hop,
              fast_accurate_analysis, hresp, hjson, hdec, initialJobRecord,
              Except.toOption]
        | some a =>
          refine ⟨?_, ?_, ?_, ?_, ?_, ?_⟩ <;>
            simp [runJob, analyze_video_task, extract_smart_weighted_frames, hop,
              fast_accurate_analysis, hresp, hjson, hdec, initialJobRecord,
              Except.toOption]

/-- C4 witness: the three fully-modelled failure stages each produce a
completed record with `used_fallback = true`: an unopenable video, a failing
model call, and a response with no extractable JSON. -/
theorem C4_job_completes_with_fallback_flag_witness :
    ((runJob envBadVideo).status = "completed" ∧
      (runJob envBadVideo).used_fallback = some true) ∧
    ((runJob envModelError).status = "completed" ∧
      (runJob envModelError).used_fallback = some true) ∧
    ((runJob envNoJson).status = "completed" ∧
      (runJob envNoJson).used_fallback = some true) :=
  ⟨⟨(C4_job_completes_with_fallback_flag envBadVideo).1,
    (C4_job_completes_with_fallback_flag envBadVideo).2.2.2.1 rfl⟩,
   ⟨(C4_job_completes_with_fallback_flag envModelError).1,
    (C4_job_completes_with_fallback_flag envModelError).2.2.2.2.1 "timeout" rfl⟩,
   ⟨(C4_job_completes_with_fallback_flag envNoJson).1,
    (C4_job_completes_with_fallback_flag envNoJson).2.2.2.2.2 "no json here" rfl rfl⟩⟩

/-- C5 counterexample: a video that opens, reports one frame and decodes it
(decodable frame count 1), but with fps 0: the per-frame timestamp division
raises and is swallowed, so the returned sequence is empty and the final
frame is NOT present. -/
theorem C5_counterexample :
    vZeroFps.read (vZeroFps.total_frames - 1) = some [0] ∧
    (extract_smart_weighted_frames vZeroFps).toOption.map Prod.fst = some [] :=
  ⟨rfl, rfl⟩

/-- C5 (amended): whenever the frame at the final index is successfully
extracted (which requires a nonzero frame rate), it is present in the
returned sequence, and the duplicate check is by value equality: if an equal
frame was already collected, nothing is appended. -/
theorem C5_last_frame_included (v : VideoSource) (lf : FrameD)
    (hopen : v.opened = true)
    (hlast : extract_frame_at_index v (v.total_frames - 1) = some lf) :
    lf ∈ sortedFramesOf v ∧
    (∀ fr md, extract_smart_weighted_frames v = .ok (fr, md) → lf ∈ fr) ∧
    (lf ∈ collectFrames v → framesWithLast v = collectFrames v) := by
  have hmem : lf ∈ framesWithLast v := by
    unfold framesWithLast
    simp only [hlast]
    by_cases hin : lf ∈ collectFrames v
    · rw [if_pos hin]
      exact hin
    · rw [if_neg hin]
      exact List.mem_append_right _ (by simp)
  have hsmem : lf ∈ sortedFramesOf v :=
    (List.perm_insertionSort (fun a b => frameLEb a b = true)
      (framesWithLast v)).mem_iff.mpr hmem
  refine ⟨hsmem, ?_, ?_⟩
  · intro fr md hok
    unfold extract_smart_weighted_frames at hok
    rw [if_neg (by simp [hopen])] at hok
    simp only [Except.ok.injEq, Prod.mk.injEq] at hok
    rw [← hok.1]
    exact hsmem
  · intro hin
    unfold framesWithLast
    simp only [hlast]
    rw [if_pos hin]

/-- C5 witness: on the good 10-frame video the final frame (index 9) is
extracted and appears in the returned sequence. -/
theorem C5_last_frame_included_witness :
    vGood.opened = true ∧
    extract_frame_at_index vGood (vGood.total_frames - 1) = some lastFrameOfvGood ∧
    lastFrameOfvGood ∈ sortedFramesOf vGood :=
  ⟨rfl, by decide,
    (C5_last_frame_included vGood lastFrameOfvGood rfl (by decide)).1⟩

/-- C8 counterexample: a video that opens with one decodable frame but fps 0
yields an EMPTY frame sequence (every per-frame extraction swallows the
zero-division), refuting the claimed non-emptiness for all decodable-count-1
videos. -/
theorem C8_counterexample :
    vZeroFps.opened = true ∧ (1 : ℤ) ≤ vZeroFps.total_frames ∧
    vZeroFps.read 0 = some [0] ∧
    (extract_smart_weighted_frames vZeroFps).toOption.map Prod.fst = some [] :=
  ⟨rfl, by decide, rfl, rfl⟩

/-- C8 (amended): extraction raises exactly when the video cannot be opened;
any opened video (zero-duration included) yields the sorted frame sequence
for free, the sequence is always ascending in timestamp-in-seconds, a
non-positive frame rate is treated as duration 0, and the sequence is
non-empty provided the frame rate is nonzero and the final index decodes. -/
theorem C8_extraction_sorted_nonempty (v : VideoSource) :
    (v.opened = false → (extract_smart_weighted_frames v).toOption = none) ∧
    (v.opened = true →
      extract_smart_weighted_frames v = .ok (sortedFramesOf v, metadataOf v)) ∧
    List.Sorted frameLE (sortedFramesOf v) ∧
    (v.fps ≤ 0 → videoDuration v = 0) ∧
    (v.fps ≠ 0 → 1 ≤ v.total_frames →
      (∃ bs, v.read (v.total_frames - 1) = some bs) → sortedFramesOf v ≠ []) := by
  refine ⟨?_, ?_, ?_, ?_, ?_⟩
  · intro h
    simp [extract_smart_weighted_frames, h, Except.toOption]
  · intro h
    simp [extract_smart_weighted_frames, h]
  · exact (List.sorted_insertionSort (fun a b => frameLEb a b = true)
      (framesWithLast v)).imp (fun hab => (frameLEb_iff _ _).mp hab)
  · intro h
    unfold videoDuration
    rw [if_neg]
    intro hc
    rw [qlt_eq, decide_eq_true_eq] at hc
    exact absurd hc (not_lt.mpr h)
  · rintro hfps htot ⟨bs, hread⟩
    have hlf : ∃ lf, extract_frame_at_index v (v.total_frames - 1) = some lf := by
      unfold extract_frame_at_index
      simp only [hread]
      rw [if_neg (fun hc => hfps (Rat.num_eq_zero.mp hc))]
      exact ⟨_, rfl⟩
    obtain ⟨lf, hlf⟩ := hlf
    have hmem : lf ∈ framesWithLast v := by
      unfold framesWithLast
      simp only [hlf]
      by_cases hin : lf ∈ collectFrames v
      · rw [if_pos hin]
        exact hin
      · rw [if_neg hin]
        exact List.mem_append_right _ (by simp)
    have hsmem : lf ∈ sortedFramesOf v :=
      (List.perm_insertionSort (fun a b => frameLEb a b = true)
        (framesWithLast v)).mem_iff.mpr hmem
    intro hnil
    rw [hnil] at hsmem
    exact List.not_mem_nil lf hsmem

/-- C8 witness: the good video is extracted without raising into a non-empty,
time-ascending sequence. -/
theorem C8_extraction_sorted_nonempty_witness :
    vGood.opened = true ∧ vGood.fps ≠ 0 ∧ (1 : ℤ) ≤ vGood.total_frames ∧
    List.Sorted frameLE (sortedFramesOf vGood) ∧ sortedFramesOf vGood ≠ [] :=
  ⟨rfl, by decide, by decide,
    (C8_extraction_sorted_nonempty vGood).2.2.1,
    (C8_extraction_sorted_nonempty vGood).2.2.2.2 (by decide) (by decide)
      ⟨[9], by decide⟩⟩

end BJJ
